import Mathlib

/-
Verification of the process-discovery / minidump subsystem (src/env.cpp).

The C++ code is shallowly embedded: every Win32 call is an oracle passed in
as a function argument, and each embedded function mirrors the control flow
of its C++ counterpart.  Instrumentation fields (attempt traces, error-log
lists, open-attempt lists, call counters) record externally observable
behaviour that the claims talk about; they do not alter control flow.
-/

namespace env

/-- Result of a CreateFileW call made by tempFile: either a valid handle, or
INVALID_HANDLE_VALUE with GetLastError being ERROR_FILE_EXISTS, or
INVALID_HANDLE_VALUE with some other error code. -/
inductive CreateResult where
  | ok (h : Nat)
  | fileExists
  | otherError
deriving DecidableEq

/-- A Win32 HANDLE as stored in a HandlePtr: the nullptr of an empty
HandlePtr, the INVALID_HANDLE_VALUE sentinel, or a valid handle. -/
inductive Handle where
  | null
  | invalid
  | valid (h : Nat)
deriving DecidableEq

/-- Broken-down UTC time as produced by std::gmtime: tm_year is years since
1900 and tm_mon is zero-based, exactly as in struct tm. -/
structure Tm where
  year : Nat
  mon : Nat
  mday : Nat
  hour : Nat
  min : Nat
  sec : Nat
deriving DecidableEq

/-- Models std::setw(w) with fill character c on a numeral already rendered
as a string: pads on the left up to width w. -/
def pad (w : Nat) (c : Char) (s : String) : String :=
  String.mk (List.replicate (w - s.length) c) ++ s

/-- The "ModOrganizer-YYYYMMDDThhmmss" stem built by tempFile's
wostringstream.  The year field uses the stream's default fill (a space,
irrelevant for four-digit years); all later fields use setfill('0'). -/
def dumpBaseName (t : Tm) : String :=
  "ModOrganizer-"
    ++ pad 4 ' ' (toString (1900 + t.year))
    ++ pad 2 '0' (toString (t.mon + 1))
    ++ pad 2 '0' (toString t.mday)
    ++ "T"
    ++ pad 2 '0' (toString t.hour)
    ++ pad 2 '0' (toString t.min)
    ++ pad 2 '0' (toString t.sec)

/-- The path attempted by tempFile on (zero-based) attempt k: the bare stem
for k = 0, and the stem with "-k" inserted before the extension afterwards
(the C++ loop builds attempt i+1's path as dir\stem-(i+1)ext). -/
def tempFilePath (dir stem ext : String) (k : Nat) : String :=
  if k = 0 then dir ++ "\\" ++ stem ++ ext
  else dir ++ "\\" ++ stem ++ "-" ++ toString k ++ ext

/-- The retry loop of tempFile: up to the given fuel (100 in the source),
try CreateFileW on the current path; success returns the handle, an
ERROR_FILE_EXISTS retries with the next suffix, any other error aborts with
an empty HandlePtr (null).  Also returns the list of attempted paths. -/
def tempFileGo (cf : String → CreateResult) (dir stem ext : String) :
    Nat → Nat → Handle × List String
  | 0, _ => (Handle.null, [])
  | fuel+1, k =>
    let path := tempFilePath dir stem ext k
    match cf path with
    | CreateResult.ok h => (Handle.valid h, [path])
    | CreateResult.fileExists =>
      let r := tempFileGo cf dir stem ext fuel (k+1)
      (r.1, path :: r.2)
    | CreateResult.otherError => (Handle.null, [path])

/-- tempFile(dir): 100 creation attempts with the timestamp stem and ".dmp"
extension; returns a null HandlePtr after running out of filenames or on a
non-collision creation error. -/
def tempFile (cf : String → CreateResult) (t : Tm) (dir : String) :
    Handle × List String :=
  tempFileGo cf dir (dumpBaseName t) ".dmp" 100 0

/-- dumpFile(): tries tempFile(".") and returns its handle whenever that
handle is not INVALID_HANDLE_VALUE; otherwise falls through to tempDir()
(modelled as the tmpDir argument, empty on failure) and tempFile(tmpDir). -/
def dumpFile (cf : String → CreateResult) (t : Tm) (tmpDir : String) : Handle :=
  let h := (tempFile cf t ".").1
  if h ≠ Handle.invalid then h
  else if tmpDir ≠ "" then
    let h2 := (tempFile cf t tmpDir).1
    if h2 ≠ Handle.invalid then h2 else Handle.null
  else Handle.null

/-- tempFile never returns INVALID_HANDLE_VALUE: its failure value is the
empty (null) HandlePtr. -/
theorem tempFileGo_ne_invalid (cf : String → CreateResult)
    (dir stem ext : String) :
    ∀ fuel k, (tempFileGo cf dir stem ext fuel k).1 ≠ Handle.invalid := by
  intro fuel
  induction fuel with
  | zero => intro k; simp [tempFileGo]
  | succ n ih =>
    intro k
    simp only [tempFileGo]
    cases cf (tempFilePath dir stem ext k) with
    | ok h => simp
    | fileExists => simpa using ih (k+1)
    | otherError => simp

/-- Outcome of one of the two growing-buffer loops: a trusted success, an
abort on a hard failure of the underlying call, or exhaustion of the 10
doubling attempts. -/
inductive GrowOutcome where
  | ok
  | hardFail
  | exhausted
deriving DecidableEq

/-- Instrumented result of processFilename: the written length whose buffer
contents become the returned name (0 on the empty-string failure return),
the outcome, the number of calls made to the OS, and the buffer capacity
passed to the last call made (for exhausted, the capacity that the next
call would have used). -/
structure FnResult where
  written : Nat
  outcome : GrowOutcome
  calls : Nat
  finalCap : Nat
deriving DecidableEq

/-- The retry loop of processFilename over the GetModuleFileNameW /
GetModuleBaseNameW oracle (capacity ↦ writtenSize): writtenSize 0 is a hard
failure that breaks the loop, writtenSize ≥ capacity doubles the buffer, and
anything else is trusted and returned. -/
def processFilenameGo (query : Nat → Nat) : Nat → Nat → Nat → FnResult
  | 0, cap, calls => ⟨0, GrowOutcome.exhausted, calls, cap⟩
  | fuel+1, cap, calls =>
    let w := query cap
    if w = 0 then ⟨0, GrowOutcome.hardFail, calls + 1, cap⟩
    else if cap ≤ w then processFilenameGo query fuel (cap * 2) (calls + 1)
    else ⟨w, GrowOutcome.ok, calls + 1, cap⟩

/-- processFilename: MaxTries = 10 and the initial buffer size is MAX_PATH
(260 wide characters). -/
def processFilenameR (query : Nat → Nat) : FnResult :=
  processFilenameGo query 10 260 0

/-- Result of one EnumProcesses call: FALSE (hard failure), or TRUE with the
list of pids written into the buffer (bytesWritten = 4 * pids.length). -/
inductive EnumResult where
  | fail
  | ok (pids : List Nat)
deriving DecidableEq

/-- Instrumented result of runningProcessesIds: the returned pid vector
(empty on either failure), the outcome, the number of EnumProcesses calls
made, and the capacity (in DWORD entries) of the last call made. -/
structure EnumIdsResult where
  pids : List Nat
  outcome : GrowOutcome
  calls : Nat
  finalCap : Nat
deriving DecidableEq

/-- The retry loop of runningProcessesIds: a FALSE return aborts with an
empty vector and an error message; bytesWritten = bytesGiven (i.e. the pid
count equals the capacity) doubles the buffer; otherwise the filled entries
are returned. -/
def runningProcessesIdsGo (enum : Nat → EnumResult) :
    Nat → Nat → Nat → EnumIdsResult
  | 0, size, calls => ⟨[], GrowOutcome.exhausted, calls, size⟩
  | fuel+1, size, calls =>
    match enum size with
    | EnumResult.fail => ⟨[], GrowOutcome.hardFail, calls + 1, size⟩
    | EnumResult.ok pids =>
      if pids.length = size then
        runningProcessesIdsGo enum fuel (size * 2) (calls + 1)
      else ⟨pids, GrowOutcome.ok, calls + 1, size⟩

/-- runningProcessesIds with its instrumentation: MaxTries = 10 and an
initial capacity of 300 entries. -/
def runningProcessesIdsR (enum : Nat → EnumResult) : EnumIdsResult :=
  runningProcessesIdsGo enum 10 300 0

/-- The pid vector actually returned by runningProcessesIds. -/
def runningProcessesIds (enum : Nat → EnumResult) : List Nat :=
  (runningProcessesIdsR enum).pids

/-- An honest OS for EnumProcesses: the system has the fixed pid list
allPids, and a call with capacity c fills the buffer with as many of them
as fit. -/
def osEnum (allPids : List Nat) (c : Nat) : EnumResult :=
  EnumResult.ok (allPids.take c)

/-- A ProcessRecord as built by runningProcesses. -/
structure Process where
  filename : String
  pid : Nat
deriving DecidableEq

/-- ERROR_ACCESS_DENIED, the one OpenProcess error that runningProcesses
deliberately does not log. -/
def ERROR_ACCESS_DENIED : Nat := 5

/-- Result of an OpenProcess call: a valid handle or a failure with a
GetLastError code. -/
inductive OpenResult where
  | ok (h : Nat)
  | fail (code : Nat)
deriving DecidableEq

/-- Instrumented result of runningProcesses: the record list, the pids named
in "failed to open process" error-log lines (in emission order), and the
pids for which an OpenProcess attempt was made (in order). -/
structure ProcListResult where
  procs : List Process
  errLog : List Nat
  opens : List Nat
deriving DecidableEq

/-- The body of runningProcesses over the pid list: pid 0 is skipped before
any open; an open failure with ERROR_ACCESS_DENIED is silently skipped, any
other open failure logs one line naming the pid; on success the filename is
resolved (oracle on the handle) and a record is appended when non-empty. -/
def runningProcessesGo (openp : Nat → OpenResult) (resolve : Nat → String) :
    List Nat → ProcListResult
  | [] => ⟨[], [], []⟩
  | pid :: rest =>
    if pid = 0 then runningProcessesGo openp resolve rest
    else
      let r := runningProcessesGo openp resolve rest
      match openp pid with
      | OpenResult.ok h =>
        let fn := resolve h
        if fn = "" then ⟨r.procs, r.errLog, pid :: r.opens⟩
        else ⟨⟨fn, pid⟩ :: r.procs, r.errLog, pid :: r.opens⟩
      | OpenResult.fail e =>
        if e = ERROR_ACCESS_DENIED then ⟨r.procs, r.errLog, pid :: r.opens⟩
        else ⟨r.procs, pid :: r.errLog, pid :: r.opens⟩

/-- runningProcesses: enumerate pids, then process each as above. -/
def runningProcesses (enum : Nat → EnumResult) (openp : Nat → OpenResult)
    (resolve : Nat → String) : ProcListResult :=
  runningProcessesGo openp resolve (runningProcessesIds enum)

/-- The scan loop of findOtherPid: return the pid of the first record whose
filename equals (std::wstring operator==) the current name and whose pid
differs from this process's pid; 0 when the scan finds nothing. -/
def findOtherPidGo (filename : String) (thisPid : Nat) : List Process → Nat
  | [] => 0
  | p :: rest =>
    if p.filename = filename then
      if p.pid ≠ thisPid then p.pid
      else findOtherPidGo filename thisPid rest
    else findOtherPidGo filename thisPid rest

/-- findOtherPid over an already-obtained process list: selfName is the
result of processFilename() for the current process (empty on failure, in
which case the hardcoded default "ModOrganizer.exe" is used). -/
def findOtherPid (selfName : String) (thisPid : Nat)
    (procs : List Process) : Nat :=
  let filename := if selfName = "" then "ModOrganizer.exe" else selfName
  findOtherPidGo filename thisPid procs

/-- findOtherPid composed with the full enumeration pipeline. -/
def findOtherPidFull (selfName : String) (thisPid : Nat)
    (enum : Nat → EnumResult) (openp : Nat → OpenResult)
    (resolve : Nat → String) : Nat :=
  findOtherPid selfName thisPid (runningProcesses enum openp resolve).procs

/-- Second definition for the refinement claim on findOtherPid, following
the spec's words with the exact-match reading: the first enumeration-order
record with the same filename and a different pid, else 0. -/
def findSiblingPidSpec (selfName : String) (thisPid : Nat)
    (procs : List Process) : Nat :=
  let name := if selfName = "" then "ModOrganizer.exe" else selfName
  ((procs.find? fun p => p.filename == name && p.pid != thisPid).map
    Process.pid).getD 0

/-- ASCII case-folded code of a character, for modelling the OS's
case-insensitive filename comparison. -/
def lowerCode (c : Char) : Nat :=
  if 65 ≤ c.toNat ∧ c.toNat ≤ 90 then c.toNat + 32 else c.toNat

/-- Case-insensitive comparison key of a string: its case-folded codes. -/
def ciKey (s : String) : List Nat :=
  s.data.map lowerCode

/-- Second definition for the refinement claim on findOtherPid, following
the claim's words literally: filename matching is case-insensitive, as in
OS filename comparison. -/
def findSiblingPidSpecCI (selfName : String) (thisPid : Nat)
    (procs : List Process) : Nat :=
  let name := if selfName = "" then "ModOrganizer.exe" else selfName
  ((procs.find? fun p =>
      ciKey p.filename == ciKey name && p.pid != thisPid).map
    Process.pid).getD 0

/-- MINIDUMP_TYPE flag values from the Windows SDK. -/
def MiniDumpNormal : Nat := 0x00000000

/-- MiniDumpWithDataSegs flag value. -/
def MiniDumpWithDataSegs : Nat := 0x00000001

/-- MiniDumpWithFullMemory flag value. -/
def MiniDumpWithFullMemory : Nat := 0x00000002

/-- MiniDumpWithHandleData flag value. -/
def MiniDumpWithHandleData : Nat := 0x00000004

/-- MiniDumpWithUnloadedModules flag value. -/
def MiniDumpWithUnloadedModules : Nat := 0x00000020

/-- MiniDumpWithProcessThreadData flag value. -/
def MiniDumpWithProcessThreadData : Nat := 0x00000100

/-- The dump verbosity selector. -/
inductive CoreDumpTypes where
  | Mini
  | Data
  | Full
deriving DecidableEq

/-- The flag computation of createMiniDump: an unconditional baseline, then
MiniDumpWithDataSegs for Data, MiniDumpWithFullMemory for Full, and nothing
more for Mini. -/
def dumpFlags (t : CoreDumpTypes) : Nat :=
  let flags := MiniDumpNormal ||| MiniDumpWithHandleData |||
    MiniDumpWithUnloadedModules ||| MiniDumpWithProcessThreadData
  if t = CoreDumpTypes.Data then flags ||| MiniDumpWithDataSegs
  else if t = CoreDumpTypes.Full then flags ||| MiniDumpWithFullMemory
  else flags

/-- createMiniDump: allocate a dump file via dumpFile (empty HandlePtr means
failure) and invoke MiniDumpWriteDump (the snapshot oracle, taking the
target process, the flag set and the file handle) with the computed flags. -/
def createMiniDump (cf : String → CreateResult) (t : Tm) (tmpDir : String)
    (snapshot : Nat → Nat → Handle → Bool) (process : Nat)
    (dumpType : CoreDumpTypes) : Bool :=
  let file := dumpFile cf t tmpDir
  if file = Handle.null then false
  else snapshot process (dumpFlags dumpType) file

/-- coredump: capture the current process with the shared capture routine. -/
def coredump (capture : Nat → Bool) (selfHandle : Nat) : Bool :=
  capture selfHandle

/-- The gating logic of coredumpOther around an abstract capture routine:
returns the overall result paired with whether the capture routine was
invoked at all (and hence whether any dump file allocation or snapshot call
could have happened). -/
def coredumpOtherGen (capture : Nat → Bool) (otherPid : Nat)
    (openp : Nat → OpenResult) : Bool × Bool :=
  if otherPid = 0 then (false, false)
  else
    match openp otherPid with
    | OpenResult.ok h => (capture h, true)
    | OpenResult.fail _ => (false, false)

/-- coredumpOther: locate the sibling pid, open it, and delegate to
createMiniDump on the opened handle. -/
def coredumpOther (selfName : String) (thisPid : Nat)
    (enum : Nat → EnumResult) (openp : Nat → OpenResult)
    (resolve : Nat → String) (cf : String → CreateResult) (t : Tm)
    (tmpDir : String) (snapshot : Nat → Nat → Handle → Bool)
    (dumpType : CoreDumpTypes) : Bool :=
  (coredumpOtherGen (fun h => createMiniDump cf t tmpDir snapshot h dumpType)
    (findOtherPidFull selfName thisPid enum openp resolve) openp).1

/-- The fixed timestamp 2024-01-15T12:00:00 UTC used by the concrete naming
claims, in struct tm convention (year 124 = 2024, month 0 = January). -/
def tm0 : Tm := ⟨124, 0, 15, 12, 0, 0⟩

/-- Whether processing the given pid emits a "failed to open process" error
line: the pid is not 0 and OpenProcess fails with an error other than
ERROR_ACCESS_DENIED. -/
def isLoggedOpenFailure (openp : Nat → OpenResult) (pid : Nat) : Bool :=
  pid != 0 &&
    match openp pid with
    | OpenResult.ok _ => false
    | OpenResult.fail e => e != ERROR_ACCESS_DENIED

theorem runningProcessesGo_no_zero (openp : Nat → OpenResult)
    (resolve : Nat → String) (pids : List Nat) :
    ((runningProcessesGo openp resolve pids).procs.all fun p => p.pid != 0)
      = true
    ∧ ((runningProcessesGo openp resolve pids).opens.all fun q => q != 0)
      = true := by
  induction pids with
  | nil => simp [runningProcessesGo]
  | cons pid rest ih =>
    by_cases h0 : pid = 0
    · simpa [runningProcessesGo, h0] using ih
    · cases hop : openp pid with
      | ok h =>
        by_cases hfn : resolve h = "" <;>
          simp [runningProcessesGo, h0, hop, hfn, ih.1, ih.2]
      | fail e =>
        by_cases hd : e = ERROR_ACCESS_DENIED <;>
          simp [runningProcessesGo, h0, hop, hd, ih.1, ih.2]

theorem runningProcessesGo_errLog (openp : Nat → OpenResult)
    (resolve : Nat → String) (pids : List Nat) :
    (runningProcessesGo openp resolve pids).errLog
      = pids.filter (isLoggedOpenFailure openp) := by
  induction pids with
  | nil => simp [runningProcessesGo]
  | cons pid rest ih =>
    by_cases h0 : pid = 0
    · simp [runningProcessesGo, h0, ih, isLoggedOpenFailure]
    · cases hop : openp pid with
      | ok h =>
        by_cases hfn : resolve h = "" <;>
          simp [runningProcessesGo, h0, hop, hfn, ih, isLoggedOpenFailure]
      | fail e =>
        by_cases hd : e = ERROR_ACCESS_DENIED <;>
          simp [runningProcessesGo, h0, hop, hd, ih, isLoggedOpenFailure]

/-- C6: for each of the three DumpRequestType values, createMiniDump builds
exactly these flags: the fixed baseline normal | handle data |
unloaded-modules | thread data for Mini, the baseline plus data segments for
Data, the baseline plus full memory for Full, and no other combination
occurs for any selector. -/
theorem createMiniDump_flags :
    dumpFlags CoreDumpTypes.Mini
      = (MiniDumpNormal ||| MiniDumpWithHandleData |||
          MiniDumpWithUnloadedModules ||| MiniDumpWithProcessThreadData)
    ∧ dumpFlags CoreDumpTypes.Data
      = (dumpFlags CoreDumpTypes.Mini ||| MiniDumpWithDataSegs)
    ∧ dumpFlags CoreDumpTypes.Full
      = (dumpFlags CoreDumpTypes.Mini ||| MiniDumpWithFullMemory)
    ∧ ∀ ty, dumpFlags ty = 0x124 ∨ dumpFlags ty = 0x125 ∨
        dumpFlags ty = 0x126 := by
  refine ⟨by decide, by decide, by decide, ?_⟩
  intro ty
  cases ty <;> decide

/-- C7: for every enumeration, open and filename oracle, the record list
returned by runningProcesses contains no record with pid 0, and pid 0 is
never even the subject of an OpenProcess attempt. -/
theorem runningProcesses_skips_pid_zero (enum : Nat → EnumResult)
    (openp : Nat → OpenResult) (resolve : Nat → String) :
    ((runningProcesses enum openp resolve).procs.all fun p => p.pid != 0)
      = true
    ∧ ((runningProcesses enum openp resolve).opens.all fun q => q != 0)
      = true :=
  runningProcessesGo_no_zero openp resolve (runningProcessesIds enum)

/-- C8: the error log emitted by runningProcesses is exactly one line (the
pid) for every open attempt that fails with an error other than
access-denied, in order, and no line for access-denied failures, successful
opens, or the skipped pid 0. -/
theorem runningProcesses_error_log (enum : Nat → EnumResult)
    (openp : Nat → OpenResult) (resolve : Nat → String) :
    (runningProcesses enum openp resolve).errLog
      = (runningProcessesIds enum).filter (isLoggedOpenFailure openp) :=
  runningProcessesGo_errLog openp resolve (runningProcessesIds enum)

/-- C1 (code bug): dumpFile never reaches its temp-directory fallback.  Its
success test compares the handle against INVALID_HANDLE_VALUE, but tempFile
signals failure with an empty (null) HandlePtr, which passes that test, so
dumpFile always returns whatever the working-directory attempt produced.
Concretely, with an oracle that refuses creation in the working directory
"." and would succeed in the temp directory "T", dumpFile returns the null
handle even though the fallback location would have worked. -/
theorem dumpFile_never_falls_back :
    (∀ cf t tmpDir, dumpFile cf t tmpDir = (tempFile cf t ".").1)
    ∧ dumpFile
        (fun s => if s.take 1 = "." then CreateResult.otherError
          else CreateResult.ok 7) tm0 "T" = Handle.null
    ∧ (tempFile
        (fun s => if s.take 1 = "." then CreateResult.otherError
          else CreateResult.ok 7) tm0 "T").1 = Handle.valid 7 := by
  refine ⟨?_, by decide, by decide⟩
  intro cf t tmpDir
  have hni := tempFileGo_ne_invalid cf "." (dumpBaseName t) ".dmp" 100 0
  simp only [dumpFile, tempFile]
  rw [if_pos hni]

theorem string_append_assoc (a b c : String) : a ++ b ++ c = a ++ (b ++ c) := by
  cases a with
  | mk la =>
    cases b with
    | mk lb =>
      cases c with
      | mk lc =>
        show String.mk (la ++ lb ++ lc) = String.mk (la ++ (lb ++ lc))
        rw [List.append_assoc]

theorem tempFilePath_zero (d : String) :
    tempFilePath d (dumpBaseName tm0) ".dmp" 0
      = d ++ "\\ModOrganizer-20240115T120000.dmp" := by
  simp only [tempFilePath, if_pos rfl, string_append_assoc]
  exact congrArg (fun s => d ++ s) (by decide)

theorem tempFilePath_one (d : String) :
    tempFilePath d (dumpBaseName tm0) ".dmp" 1
      = d ++ "\\ModOrganizer-20240115T120000-1.dmp" := by
  simp only [tempFilePath, if_neg (by decide : ¬(1 : Nat) = 0),
    string_append_assoc]
  exact congrArg (fun s => d ++ s) (by decide)

theorem tempFileGo_all_exists (d stem ext : String) :
    ∀ fuel k,
      (tempFileGo (fun _ => CreateResult.fileExists) d stem ext fuel k).1
        = Handle.null
      ∧ (tempFileGo (fun _ => CreateResult.fileExists) d stem ext
          fuel k).2.length = fuel := by
  intro fuel
  induction fuel with
  | zero => intro k; simp [tempFileGo]
  | succ n ih =>
    intro k
    simp [tempFileGo, (ih (k+1)).1, (ih (k+1)).2]

theorem tempFileGo_succ (cf : String → CreateResult) (d stem ext : String)
    (fuel k : Nat) :
    tempFileGo cf d stem ext (fuel + 1) k
      = match cf (tempFilePath d stem ext k) with
        | CreateResult.ok h =>
            (Handle.valid h, [tempFilePath d stem ext k])
        | CreateResult.fileExists =>
            ((tempFileGo cf d stem ext fuel (k + 1)).1,
              tempFilePath d stem ext k
                :: (tempFileGo cf d stem ext fuel (k + 1)).2)
        | CreateResult.otherError =>
            (Handle.null, [tempFilePath d stem ext k]) := by
  cases hc : cf (tempFilePath d stem ext k) <;> simp [tempFileGo, hc]

/-- C5: for the fixed timestamp 2024-01-15T12:00:00, the first name tempFile
attempts in a directory is ModOrganizer-20240115T120000.dmp (zero-padded
fields); if creation of that name reports an already-exists conflict, the
second attempt is the same name with -1 inserted before the extension; and
when all attempts collide, tempFile reports failure for that directory after
exactly 100 attempts. -/
theorem tempFile_naming_scheme (cf : String → CreateResult) (d : String) :
    (tempFile cf tm0 d).2.head?
      = some (d ++ "\\ModOrganizer-20240115T120000.dmp")
    ∧ (cf (d ++ "\\ModOrganizer-20240115T120000.dmp")
          = CreateResult.fileExists →
        (tempFile cf tm0 d).2[1]?
          = some (d ++ "\\ModOrganizer-20240115T120000-1.dmp"))
    ∧ (tempFile (fun _ => CreateResult.fileExists) tm0 d).1 = Handle.null
    ∧ (tempFile (fun _ => CreateResult.fileExists) tm0 d).2.length = 100 := by
  refine ⟨?_, ?_, ?_, ?_⟩
  · show (tempFileGo cf d (dumpBaseName tm0) ".dmp" 100 0).2.head? = _
    rw [show (100 : Nat) = 99 + 1 from rfl, tempFileGo_succ]
    cases hc : cf (tempFilePath d (dumpBaseName tm0) ".dmp" 0) <;>
      simp [hc, tempFilePath_zero]
  · intro h
    show (tempFileGo cf d (dumpBaseName tm0) ".dmp" 100 0).2[1]? = _
    rw [show (100 : Nat) = 99 + 1 from rfl, tempFileGo_succ, tempFilePath_zero,
      h]
    simp only [List.getElem?_cons_succ, List.getElem?_cons_zero]
    rw [show (99 : Nat) = 98 + 1 from rfl, tempFileGo_succ, tempFilePath_one]
    cases hc : cf (d ++ "\\ModOrganizer-20240115T120000-1.dmp") <;>
      simp [hc]
  · exact (tempFileGo_all_exists d (dumpBaseName tm0) ".dmp" 100 0).1
  · exact (tempFileGo_all_exists d (dumpBaseName tm0) ".dmp" 100 0).2

/-- Witness for the naming-scheme theorem at the all-collisions oracle and
the working directory. -/
theorem tempFile_naming_scheme_witness :
    ((fun _ : String => CreateResult.fileExists)
        ("." ++ "\\ModOrganizer-20240115T120000.dmp")
      = CreateResult.fileExists)
    ∧ (tempFile (fun _ => CreateResult.fileExists) tm0 ".").2[1]?
        = some ("." ++ "\\ModOrganizer-20240115T120000-1.dmp") :=
  ⟨rfl,
    (tempFile_naming_scheme (fun _ => CreateResult.fileExists) ".").2.1 rfl⟩

theorem findOtherPidGo_eq_find (name : String) (tp : Nat) (l : List Process) :
    findOtherPidGo name tp l
      = ((l.find? fun p => p.filename == name && p.pid != tp).map
          Process.pid).getD 0 := by
  induction l with
  | nil => rfl
  | cons p rest ih =>
    by_cases h1 : p.filename = name
    · by_cases h2 : p.pid = tp
      · have hb : (p.pid != tp) = false := by simp [h2]
        simp [findOtherPidGo, h1, h2, List.find?, hb, ih]
      · have hb : (p.pid != tp) = true := by simp [h2]
        simp [findOtherPidGo, h1, h2, List.find?, hb]
    · have hb : (p.filename == name) = false := by simp [h1]
      simp [findOtherPidGo, h1, List.find?, hb, ih]

/-- C2 (amended): findOtherPid returns the pid of the first record in
enumeration order whose filename equals the current process's filename under
exact (case-sensitive) string comparison and whose pid differs from the
caller's own pid, and 0 when no such record exists; the hardcoded default
name replaces an empty self-resolution result. -/
theorem findOtherPid_first_exact_match (selfName : String) (thisPid : Nat)
    (procs : List Process) :
    findOtherPid selfName thisPid procs
      = findSiblingPidSpec selfName thisPid procs := by
  unfold findOtherPid findSiblingPidSpec
  exact findOtherPidGo_eq_find _ _ _

/-- C2 counterexample: with a single running record whose filename differs
from the caller's only in letter case, the case-insensitive reading of the
claim picks that record's pid (2), but findOtherPid compares with exact
string equality and returns 0. -/
theorem findOtherPid_case_sensitive_ce :
    findSiblingPidSpecCI "ModOrganizer.exe" 1 [⟨"MODORGANIZER.EXE", 2⟩] = 2
    ∧ findOtherPid "ModOrganizer.exe" 1 [⟨"MODORGANIZER.EXE", 2⟩] = 0 := by
  constructor <;> decide

theorem processFilenameGo_props (query : Nat → Nat) :
    ∀ fuel cap calls,
      ((processFilenameGo query fuel cap calls).outcome = GrowOutcome.ok →
        (processFilenameGo query fuel cap calls).written
          < (processFilenameGo query fuel cap calls).finalCap)
      ∧ ((processFilenameGo query fuel cap calls).outcome
            = GrowOutcome.exhausted →
        (processFilenameGo query fuel cap calls).calls = calls + fuel)
      ∧ ((processFilenameGo query fuel cap calls).outcome
            = GrowOutcome.hardFail →
        calls < (processFilenameGo query fuel cap calls).calls
        ∧ (processFilenameGo query fuel cap calls).calls ≤ calls + fuel) := by
  intro fuel
  induction fuel with
  | zero => intro cap calls; simp [processFilenameGo]
  | succ n ih =>
    intro cap calls
    by_cases hw : query cap = 0
    · simp [processFilenameGo, hw]
    · by_cases hge : cap ≤ query cap
      · have h := ih (cap * 2) (calls + 1)
        simp only [processFilenameGo, hw, hge, if_false, if_true,
          if_neg hw, if_pos hge]
        refine ⟨h.1, fun ho => ?_, fun ho => ?_⟩
        · have := h.2.1 ho; omega
        · have := h.2.2 ho; omega
      · simp [processFilenameGo, hw, hge]
        omega

theorem runningProcessesIdsGo_props (enum : Nat → EnumResult)
    (honest : ∀ c l, enum c = EnumResult.ok l → l.length ≤ c) :
    ∀ fuel size calls,
      ((runningProcessesIdsGo enum fuel size calls).outcome = GrowOutcome.ok →
        (runningProcessesIdsGo enum fuel size calls).pids.length
          < (runningProcessesIdsGo enum fuel size calls).finalCap)
      ∧ ((runningProcessesIdsGo enum fuel size calls).outcome
            = GrowOutcome.exhausted →
        (runningProcessesIdsGo enum fuel size calls).calls = calls + fuel)
      ∧ ((runningProcessesIdsGo enum fuel size calls).outcome
            = GrowOutcome.hardFail →
        calls < (runningProcessesIdsGo enum fuel size calls).calls
        ∧ (runningProcessesIdsGo enum fuel size calls).calls
            ≤ calls + fuel) := by
  intro fuel
  induction fuel with
  | zero => intro size calls; simp [runningProcessesIdsGo]
  | succ n ih =>
    intro size calls
    cases he : enum size with
    | fail =>
      simp [runningProcessesIdsGo, he]
    | ok pids =>
      by_cases hfit : pids.length = size
      · have h := ih (size * 2) (calls + 1)
        simp only [runningProcessesIdsGo, he, hfit, if_pos rfl, if_true]
        refine ⟨h.1, fun ho => ?_, fun ho => ?_⟩
        · have := h.2.1 ho; omega
        · have := h.2.2 ho; omega
      · have hle : pids.length ≤ size := honest size pids he
        simp [runningProcessesIdsGo, he, hfit]
        omega

/-- C3 (amended): for every oracle of the filename-resolution instance and
every honest oracle of the pid-enumeration instance (the OS never reports
more elements written than the buffer holds), each growing-buffer call
either succeeds with an element count strictly below the final buffer
capacity used, or fails with the retry bound exhausted after exactly 10
growth attempts, or aborts early on a hard failure of the underlying call
after at most 10 (and at least 1) calls. -/
theorem growing_buffer_trichotomy (query : Nat → Nat)
    (enum : Nat → EnumResult)
    (honest : ∀ c l, enum c = EnumResult.ok l → l.length ≤ c) :
    (((processFilenameR query).outcome = GrowOutcome.ok ∧
        (processFilenameR query).written < (processFilenameR query).finalCap)
      ∨ ((processFilenameR query).outcome = GrowOutcome.exhausted ∧
          (processFilenameR query).calls = 10)
      ∨ ((processFilenameR query).outcome = GrowOutcome.hardFail ∧
          1 ≤ (processFilenameR query).calls ∧
          (processFilenameR query).calls ≤ 10))
    ∧ (((runningProcessesIdsR enum).outcome = GrowOutcome.ok ∧
        (runningProcessesIdsR enum).pids.length
          < (runningProcessesIdsR enum).finalCap)
      ∨ ((runningProcessesIdsR enum).outcome = GrowOutcome.exhausted ∧
          (runningProcessesIdsR enum).calls = 10)
      ∨ ((runningProcessesIdsR enum).outcome = GrowOutcome.hardFail ∧
          1 ≤ (runningProcessesIdsR enum).calls ∧
          (runningProcessesIdsR enum).calls ≤ 10)) := by
  constructor
  · have hp := processFilenameGo_props query 10 260 0
    have hR : processFilenameR query = processFilenameGo query 10 260 0 := rfl
    rw [hR]
    rcases ho : (processFilenameGo query 10 260 0).outcome with _ | _ | _
    · exact Or.inl ⟨rfl, hp.1 ho⟩
    · refine Or.inr (Or.inr ⟨rfl, ?_, ?_⟩)
      · have h1 := (hp.2.2 ho).1
        omega
      · have h1 := (hp.2.2 ho).2
        omega
    · refine Or.inr (Or.inl ⟨rfl, ?_⟩)
      have h1 := hp.2.1 ho
      omega
  · have hp := runningProcessesIdsGo_props enum honest 10 300 0
    have hR : runningProcessesIdsR enum = runningProcessesIdsGo enum 10 300 0 :=
      rfl
    rw [hR]
    rcases ho : (runningProcessesIdsGo enum 10 300 0).outcome with _ | _ | _
    · exact Or.inl ⟨rfl, hp.1 ho⟩
    · refine Or.inr (Or.inr ⟨rfl, ?_, ?_⟩)
      · have h1 := (hp.2.2 ho).1
        omega
      · have h1 := (hp.2.2 ho).2
        omega
    · refine Or.inr (Or.inl ⟨rfl, ?_⟩)
      have h1 := hp.2.1 ho
      omega

/-- Witness for the growing-buffer trichotomy: an oracle that succeeds on
the first filename call and an honest enumeration oracle that reports an
empty process list. -/
theorem growing_buffer_trichotomy_witness :
    (∀ c l, (fun _ : Nat => EnumResult.ok ([] : List Nat)) c
        = EnumResult.ok l → l.length ≤ c)
    ∧ ((((processFilenameR fun c => c - 1).outcome = GrowOutcome.ok ∧
          (processFilenameR fun c => c - 1).written
            < (processFilenameR fun c => c - 1).finalCap)
        ∨ ((processFilenameR fun c => c - 1).outcome
              = GrowOutcome.exhausted ∧
            (processFilenameR fun c => c - 1).calls = 10)
        ∨ ((processFilenameR fun c => c - 1).outcome
              = GrowOutcome.hardFail ∧
            1 ≤ (processFilenameR fun c => c - 1).calls ∧
            (processFilenameR fun c => c - 1).calls ≤ 10))
      ∧ (((runningProcessesIdsR fun _ => EnumResult.ok []).outcome
              = GrowOutcome.ok ∧
          (runningProcessesIdsR fun _ => EnumResult.ok []).pids.length
            < (runningProcessesIdsR fun _ => EnumResult.ok []).finalCap)
        ∨ ((runningProcessesIdsR fun _ => EnumResult.ok []).outcome
              = GrowOutcome.exhausted ∧
            (runningProcessesIdsR fun _ => EnumResult.ok []).calls = 10)
        ∨ ((runningProcessesIdsR fun _ => EnumResult.ok []).outcome
              = GrowOutcome.hardFail ∧
            1 ≤ (runningProcessesIdsR fun _ => EnumResult.ok []).calls ∧
            (runningProcessesIdsR fun _ => EnumResult.ok []).calls ≤ 10))) :=
  ⟨fun c l hl => by cases hl; simp,
    growing_buffer_trichotomy (fun c => c - 1) (fun _ => EnumResult.ok [])
      (fun c l hl => by cases hl; simp)⟩

/-- C3 counterexample: the claim as stated admits only "success with count
below capacity" or "failure after exactly 10 growth attempts", but a hard
failure of the underlying call (written size 0 on the very first call)
makes processFilename report failure after a single attempt. -/
theorem processFilename_hard_failure_ce :
    ¬ (∀ query : Nat → Nat,
        ((processFilenameR query).outcome = GrowOutcome.ok ∧
          (processFilenameR query).written
            < (processFilenameR query).finalCap)
        ∨ ((processFilenameR query).outcome ≠ GrowOutcome.ok ∧
            (processFilenameR query).calls = 10)) := by
  intro hall
  have h := hall fun _ => 0
  revert h
  decide

theorem osEnum_take (allPids : List Nat) :
    ∀ fuel size calls, allPids.length < size * 2 ^ fuel →
      (runningProcessesIdsGo (osEnum allPids) (fuel + 1) size calls).pids
        = allPids
      ∧ (runningProcessesIdsGo (osEnum allPids) (fuel + 1) size calls).outcome
          = GrowOutcome.ok := by
  intro fuel
  induction fuel with
  | zero =>
    intro size calls h
    rw [pow_zero, mul_one] at h
    have hne : ¬(allPids.take size).length = size := by
      rw [List.length_take]; omega
    simp only [runningProcessesIdsGo, osEnum]
    rw [if_neg hne]
    simp [List.take_of_length_le (Nat.le_of_lt h)]
  | succ n ih =>
    intro size calls h
    by_cases hlt : allPids.length < size
    · have hne : ¬(allPids.take size).length = size := by
        rw [List.length_take]; omega
      simp only [runningProcessesIdsGo, osEnum]
      rw [if_neg hne]
      simp [List.take_of_length_le (Nat.le_of_lt hlt)]
    · push_neg at hlt
      have heq : (allPids.take size).length = size := by
        rw [List.length_take]; omega
      simp only [runningProcessesIdsGo, osEnum]
      rw [if_pos heq]
      apply ih
      have h2 : size * 2 ^ (n + 1) = size * 2 * 2 ^ n := by ring
      rw [← h2]
      exact h

theorem osEnum_exhaust :
    ∀ fuel size calls, size * 2 ^ fuel = 307200 →
      (runningProcessesIdsGo (osEnum (List.replicate 153600 1))
          fuel size calls).pids = []
      ∧ (runningProcessesIdsGo (osEnum (List.replicate 153600 1))
          fuel size calls).outcome = GrowOutcome.exhausted := by
  intro fuel
  induction fuel with
  | zero => intro size calls h; simp [runningProcessesIdsGo]
  | succ n ih =>
    intro size calls h
    have h2p : (2 : Nat) ≤ 2 ^ (n + 1) := by
      calc (2 : Nat) = 2 ^ 1 := rfl
      _ ≤ 2 ^ (n + 1) := Nat.pow_le_pow_right (by omega) (by omega)
    have hmul : size * 2 ≤ size * 2 ^ (n + 1) := Nat.mul_le_mul_left size h2p
    have hsz : size ≤ 153600 := by omega
    have heq : ((List.replicate 153600 1 : List Nat).take size).length
        = size := by
      rw [List.length_take, List.length_replicate]; omega
    simp only [runningProcessesIdsGo, osEnum]
    rw [if_pos heq]
    apply ih
    have h2 : size * 2 ^ (n + 1) = size * 2 * 2 ^ n := by ring
    rw [← h2]
    exact h

theorem runningProcessesIdsGo_fail_empty (enum : Nat → EnumResult) :
    ∀ fuel size calls,
      (runningProcessesIdsGo enum fuel size calls).outcome ≠ GrowOutcome.ok →
      (runningProcessesIdsGo enum fuel size calls).pids = [] := by
  intro fuel
  induction fuel with
  | zero => intro size calls _; simp [runningProcessesIdsGo]
  | succ n ih =>
    intro size calls h
    cases he : enum size with
    | fail => simp [runningProcessesIdsGo, he]
    | ok pids =>
      by_cases hfit : pids.length = size
      · have hrec := ih (size * 2) (calls + 1)
          (by simpa [runningProcessesIdsGo, he, hfit] using h)
        simpa [runningProcessesIdsGo, he, hfit] using hrec
      · exfalso
        apply h
        simp [runningProcessesIdsGo, he, hfit]

/-- C4 (amended): against an honest OS (EnumProcesses fills the buffer with
as many of the fixed pid list as fit) whose process count is below the
exhaustion threshold of 153600, runningProcessesIds returns exactly the
OS's pid list with no error; and whenever the call does report an error —
a hard enumeration failure or exhaustion of the 10 growth attempts — the
returned vector is empty. -/
theorem runningProcessesIds_honest (allPids : List Nat)
    (hsmall : allPids.length < 153600) (enum : Nat → EnumResult)
    (hfail : (runningProcessesIdsR enum).outcome ≠ GrowOutcome.ok) :
    (runningProcessesIdsR (osEnum allPids)).pids = allPids
    ∧ (runningProcessesIdsR (osEnum allPids)).outcome = GrowOutcome.ok
    ∧ (runningProcessesIdsR enum).pids = [] := by
  have hpow : (300 : Nat) * 2 ^ 9 = 153600 := by norm_num
  have h1 := osEnum_take allPids 9 300 0 (by rw [hpow]; exact hsmall)
  exact ⟨h1.1, h1.2, runningProcessesIdsGo_fail_empty enum 10 300 0 hfail⟩

/-- Witness for the honest-enumeration theorem at a two-process OS and a
hard-failing oracle. -/
theorem runningProcessesIds_honest_witness :
    (([3, 4] : List Nat).length < 153600)
    ∧ ((runningProcessesIdsR fun _ => EnumResult.fail).outcome
        ≠ GrowOutcome.ok)
    ∧ (runningProcessesIdsR (osEnum [3, 4])).pids = [3, 4]
    ∧ (runningProcessesIdsR (osEnum [3, 4])).outcome = GrowOutcome.ok
    ∧ (runningProcessesIdsR fun _ => EnumResult.fail).pids = [] := by
  have h := runningProcessesIds_honest [3, 4] (by norm_num)
    (fun _ => EnumResult.fail) (by decide)
  exact ⟨by norm_num, by decide, h.1, h.2.1, h.2.2⟩

/-- C4 counterexample: with an honest OS that reports 153600 processes, the
enumeration call never hard-fails and the OS does report pids, yet
runningProcessesIds returns the empty vector with the exhaustion error —
an empty, error-reported result that is not caused by a hard enumeration
failure. -/
theorem runningProcessesIds_exhaustion_ce :
    (runningProcessesIdsR (osEnum (List.replicate 153600 1))).pids = []
    ∧ (runningProcessesIdsR (osEnum (List.replicate 153600 1))).outcome
        = GrowOutcome.exhausted
    ∧ (∀ c, osEnum (List.replicate 153600 1) c ≠ EnumResult.fail)
    ∧ (List.replicate 153600 1 : List Nat) ≠ [] := by
  have h := osEnum_exhaust 10 300 0 (by norm_num)
  refine ⟨h.1, h.2, fun c hf => EnumResult.noConfusion hf, fun hnil => ?_⟩
  have hlen := congrArg List.length hnil
  rw [List.length_replicate] at hlen
  simp at hlen

/-- C9: coredumpOther fails without invoking the capture routine (hence
without allocating a dump file or making a snapshot call) when the sibling
locator returns 0 or when opening the found pid fails; when the open
succeeds it delegates the opened handle to the same capture routine that
coredump uses. -/
theorem coredumpOther_gates_capture (capture : Nat → Bool) (otherPid : Nat)
    (openp : Nat → OpenResult) :
    (otherPid = 0 → coredumpOtherGen capture otherPid openp = (false, false))
    ∧ (∀ e, otherPid ≠ 0 → openp otherPid = OpenResult.fail e →
        coredumpOtherGen capture otherPid openp = (false, false))
    ∧ (∀ h, otherPid ≠ 0 → openp otherPid = OpenResult.ok h →
        coredumpOtherGen capture otherPid openp
          = (coredump capture h, true)) := by
  refine ⟨fun h0 => ?_, fun e hne hf => ?_, fun h hne hok => ?_⟩
  · simp [coredumpOtherGen, h0]
  · simp [coredumpOtherGen, hne, hf]
  · simp [coredumpOtherGen, coredump, hne, hok]

/-- Witness for the coredumpOther gating theorem at concrete pids and
oracles for each of the three cases. -/
theorem coredumpOther_gates_capture_witness :
    ((0 : Nat) = 0
      ∧ coredumpOtherGen (fun _ => true) 0 (fun _ => OpenResult.ok 1)
          = (false, false))
    ∧ ((5 : Nat) ≠ 0
      ∧ (fun _ : Nat => OpenResult.fail 3) 5 = OpenResult.fail 3
      ∧ coredumpOtherGen (fun _ => true) 5 (fun _ => OpenResult.fail 3)
          = (false, false))
    ∧ ((5 : Nat) ≠ 0
      ∧ (fun _ : Nat => OpenResult.ok 9) 5 = OpenResult.ok 9
      ∧ coredumpOtherGen (fun _ => true) 5 (fun _ => OpenResult.ok 9)
          = (coredump (fun _ => true) 9, true)) :=
  ⟨⟨rfl, (coredumpOther_gates_capture (fun _ => true) 0
      (fun _ => OpenResult.ok 1)).1 rfl⟩,
    ⟨by decide, rfl, (coredumpOther_gates_capture (fun _ => true) 5
      (fun _ => OpenResult.fail 3)).2.1 3 (by decide) rfl⟩,
    ⟨by decide, rfl, (coredumpOther_gates_capture (fun _ => true) 5
      (fun _ => OpenResult.ok 9)).2.2 9 (by decide) rfl⟩⟩

/-- C10: whenever process enumeration fails entirely (hard failure or
exhaustion of the 10 growth attempts), the pid list is empty, so
findOtherPid returns 0 — exactly the sentinel produced in a genuine
no-sibling run, as witnessed by an honest single-process OS in which only
the caller itself is running; the return value alone cannot tell the two
apart. -/
theorem findOtherPid_enum_failure_zero (selfName : String) (thisPid : Nat)
    (enum : Nat → EnumResult) (openp : Nat → OpenResult)
    (resolve : Nat → String)
    (hfail : (runningProcessesIdsR enum).outcome ≠ GrowOutcome.ok) :
    findOtherPidFull selfName thisPid enum openp resolve = 0
    ∧ findOtherPidFull "ModOrganizer.exe" 1 (fun _ => EnumResult.ok [1])
        (fun p => OpenResult.ok p) (fun _ => "ModOrganizer.exe") = 0 := by
  constructor
  · have hempty : runningProcessesIds enum = [] :=
      runningProcessesIdsGo_fail_empty enum 10 300 0 hfail
    simp [findOtherPidFull, runningProcesses, hempty, runningProcessesGo,
      findOtherPid, findOtherPidGo]
  · decide

/-- Witness for the enumeration-failure theorem at a hard-failing
enumeration oracle. -/
theorem findOtherPid_enum_failure_zero_witness :
    ((runningProcessesIdsR fun _ => EnumResult.fail).outcome
        ≠ GrowOutcome.ok)
    ∧ findOtherPidFull "x" 1 (fun _ => EnumResult.fail)
        (fun p => OpenResult.ok p) (fun _ => "x") = 0 :=
  ⟨by decide, (findOtherPid_enum_failure_zero "x" 1 (fun _ => EnumResult.fail)
    (fun p => OpenResult.ok p) (fun _ => "x") (by decide)).1⟩

end env
